import Mathlib

set_option autoImplicit false
set_option maxHeartbeats 1000000

/-!
Shallow embedding of the problem-detection engine of `media-parser-cli`
(Go package `detector`, file `internal/detector/detector.go`).

Conventions of the embedding:
* Go `float64` timestamps, sizes-as-floats and bitrates are modelled exactly
  over `ℚ` (the analyzed claims are about exact comparisons and list shapes,
  not about floating-point rounding).
* Go `int` is modelled as `ℤ`.
* Go strings are Lean `String`s; `strings.ToLower` is `strToLower` below.
* Go methods on `*Detector` mutate the receiver; here they are state-passing
  functions `Detector → args → Detector`.
* `fmt.Sprintf` on numeric values is modelled by `fmtF` below.
-/

namespace MediaParser

/-- Go type `Severity` (an `int` enum with four named constants). -/
inductive Severity where
  | SeverityInfo
  | SeverityWarning
  | SeverityCritical
  | SeverityError
deriving DecidableEq

/-- Go type `Category` (an `int` enum with ten named constants). -/
inductive Category where
  | CategoryCodec
  | CategoryContainer
  | CategoryBitrate
  | CategoryFrameRate
  | CategoryResolution
  | CategoryAudio
  | CategoryTimestamp
  | CategoryKeyframe
  | CategoryPacketLoss
  | CategoryCompatibility
deriving DecidableEq

/-- Go struct `Problem`.  Field order and names follow the source; the Go
zero values (empty string, `0`, `nil` map) are passed explicitly where the
source leaves a field unset. -/
structure Problem where
  severity : Severity
  category : Category
  code : String
  message : String
  details : String
  suggestion : String
  timestamp : ℚ
  streamIndex : ℤ
  metadata : List (String × String)
deriving DecidableEq

/-- Go struct `PacketInfo`. -/
structure PacketInfo where
  PTS : ℚ
  DTS : ℚ
  Size : ℤ
  StreamIndex : ℤ
  Flags : String
  Duration : ℚ
deriving DecidableEq

/-- Go struct `FrameInfo`. -/
structure FrameInfo where
  MediaType : String
  StreamIndex : ℤ
  KeyFrame : Bool
  PTS : ℚ
  DTS : ℚ
  Duration : ℚ
  Size : ℤ
  PixFmt : String
  PictType : String
  CodedNumber : ℤ
deriving DecidableEq

/-- Go struct `BitratePoint`.  The Go field `Type` is a Lean keyword, so it
is spelled `Typ` here. -/
structure BitratePoint where
  Time : ℚ
  Bitrate : ℚ
  Typ : String
deriving DecidableEq

/-- Go struct `Detector`: the engine state is its accumulated problem list. -/
structure Detector where
  problems : List Problem
deriving DecidableEq

/-- Go `New()`: a fresh detector with an empty problem slice. -/
def Detector.New : Detector := ⟨[]⟩

/-- Go `(*Detector).GetProblems`: returns the accumulated slice. -/
def GetProblems (d : Detector) : List Problem := d.problems

/-- Go `(*Detector).addProblem`: appends one problem to the slice. -/
def addProblem (d : Detector) (problem : Problem) : Detector :=
  ⟨d.problems ++ [problem]⟩

/-- Models Go `fmt.Sprintf` `%.{prec}f` applied to the exact rational value
of the float argument: round to `prec` decimal digits and print with a fixed
number of fraction digits.  (Go's float64 rounds ties to even; at the exact
values used in this development no tie arises, so simple half-up rounding by
`Int.floor (x + 1/2)` is used.) -/
def fmtF (prec : ℕ) (q : ℚ) : String :=
  let n : ℤ := Int.floor (q * (10 : ℚ) ^ prec + 1 / 2)
  let sign : String := if n < 0 then "-" else ""
  let m : ℕ := n.natAbs
  let ip : ℕ := m / 10 ^ prec
  let fp : ℕ := m % 10 ^ prec
  let fpStr : String := toString fp
  let padded : String := String.mk (List.replicate (prec - fpStr.length) '0') ++ fpStr
  if prec = 0 then sign ++ toString ip else sign ++ toString ip ++ "." ++ padded

/-- Whether the character list `needle` occurs at the head of `hay`. -/
def chunkAtHead : List Char → List Char → Bool
  | [], _ => true
  | _ :: _, [] => false
  | a :: as, b :: bs => a == b && chunkAtHead as bs

/-- Whether the character list `needle` occurs anywhere in `hay`. -/
def hasChunk (needle : List Char) : List Char → Bool
  | [] => chunkAtHead needle []
  | b :: bs => chunkAtHead needle (b :: bs) || hasChunk needle bs

/-- Models Go `strings.Contains hay needle`. -/
def strContains (hay needle : String) : Bool :=
  hasChunk needle.toList hay.toList

/-! ## DetectBitrateVariations (source lines 122–191) -/

/-- The hard-coded `timeWindow := 1.0` of `DetectBitrateVariations`. -/
def bvTimeWindow : ℚ := 1

/-- The window-accumulation loop of `DetectBitrateVariations`
(source lines 137–149): walk the packets keeping the current window anchor
`currentWindow` and the running byte count `windowBytes`; when a packet's PTS
passes `currentWindow + timeWindow`, emit the finished window's bitrate
(`windowBytes * 8 / timeWindow`, skipped if no bytes were accumulated),
re-anchor the window at that packet's PTS and restart the count with the
packet's size.  Returns the list `bitratePoints` in emission order.
(The Go code also accumulates `totalBitrate` alongside; its value is the sum
of the returned list and is recomputed as such in `DetectBitrateVariations`.) -/
def bvPoints : List PacketInfo → ℚ → ℤ → List ℚ
  | [], _, _ => []
  | packet :: rest, currentWindow, windowBytes =>
    if packet.PTS > currentWindow + bvTimeWindow then
      if windowBytes > 0 then
        ((windowBytes : ℚ) * 8 / bvTimeWindow) :: bvPoints rest packet.PTS packet.Size
      else
        bvPoints rest packet.PTS packet.Size
    else
      bvPoints rest currentWindow (windowBytes + packet.Size)

/-- The `BITRATE_HIGH_VARIANCE` problem (source lines 167–174).  The Go
message and details embed `%.2f` renderings of the coefficient of variation
and the standard deviation, both of which involve `math.Sqrt` and are in
general irrational; those two numeric renderings are not modelled (no claim
refers to them).  The rational average is rendered as in the source. -/
def highVarianceProblem (avgBitrate : ℚ) : Problem :=
  ⟨Severity.SeverityWarning, Category.CategoryBitrate, "BITRATE_HIGH_VARIANCE",
   "High bitrate variation detected",
   "Average: " ++ fmtF 2 (avgBitrate / 1000000) ++ " Mbps",
   "Consider using constant bitrate encoding or adjusting rate control settings",
   0, 0, []⟩

/-- The `BITRATE_SPIKE` problem for window index `i` (source lines 180–188). -/
def spikeProblem (i : ℕ) (bitrate avgBitrate : ℚ) : Problem :=
  ⟨Severity.SeverityWarning, Category.CategoryBitrate, "BITRATE_SPIKE",
   "Bitrate spike detected at ~" ++ fmtF 2 ((i : ℚ) * bvTimeWindow) ++ "s",
   "Spike: " ++ fmtF 2 (bitrate / 1000000) ++ " Mbps (avg: " ++
     fmtF 2 (avgBitrate / 1000000) ++ " Mbps)",
   "Review encoding settings or source content at this timestamp",
   (i : ℚ) * bvTimeWindow, 0, []⟩

/-- Go `(*Detector).DetectBitrateVariations` (source lines 122–191).
The Go code computes `stdDev := math.Sqrt(variance / n)` and fires the
high-variance check when `stdDev / avgBitrate > 0.3`.  Every element of
`bitratePoints` is positive (each is emitted under the guard
`windowBytes > 0`), hence `avgBitrate > 0` whenever the check is reached,
and for positive `avgBitrate` the test is equivalent to
`variance / n > (0.3 * avgBitrate)^2`, which is how the square root is
eliminated in this exact-rational embedding. -/
def DetectBitrateVariations (d : Detector) (packets : List PacketInfo) : Detector :=
  if packets.length < 2 then d
  else
    let bitratePoints := bvPoints packets 0 0
    if bitratePoints.length = 0 then d
    else
      let avgBitrate := bitratePoints.sum / (bitratePoints.length : ℚ)
      let variance := (bitratePoints.map (fun bitrate => (bitrate - avgBitrate) ^ 2)).sum
      let d1 := if variance / (bitratePoints.length : ℚ) > (0.3 * avgBitrate) ^ 2 then
          addProblem d (highVarianceProblem avgBitrate)
        else d
      bitratePoints.enum.foldl
        (fun dd ib =>
          if ib.2 > avgBitrate * 2.5 then addProblem dd (spikeProblem ib.1 ib.2 avgBitrate)
          else dd)
        d1

/-! ## DetectKeyframeIssues (source lines 194–256) -/

/-- The `NO_KEYFRAMES` problem (source lines 207–213). -/
def noKeyframesProblem : Problem :=
  ⟨Severity.SeverityError, Category.CategoryKeyframe, "NO_KEYFRAMES",
   "No or insufficient keyframes detected", "",
   "Check encoder settings for keyframe interval",
   0, 0, []⟩

/-- The `LARGE_KEYFRAME_INTERVAL` problem (source lines 248–254). -/
def largeKeyframeIntervalProblem (avgInterval : ℚ) : Problem :=
  ⟨Severity.SeverityWarning, Category.CategoryKeyframe, "LARGE_KEYFRAME_INTERVAL",
   "Large keyframe interval: " ++ fmtF 2 avgInterval ++ "s", "",
   "For streaming, consider reducing keyframe interval to 2-4 seconds",
   0, 0, []⟩

/-- The interval list of source lines 218–222: consecutive PTS deltas of the
keyframe list. -/
def keyframeIntervals : List FrameInfo → List ℚ
  | [] => []
  | _ :: [] => []
  | a :: b :: rest => (b.PTS - a.PTS) :: keyframeIntervals (b :: rest)

/-- Go `(*Detector).DetectKeyframeIssues` (source lines 194–256).  The
irregular-interval check of lines 232–244 is commented out in the source
(dead code) and therefore absent here. -/
def DetectKeyframeIssues (d : Detector) (frames : List FrameInfo) : Detector :=
  if frames.length = 0 then d
  else
    let keyframes := frames.filter (fun frame => frame.KeyFrame)
    if keyframes.length < 2 then addProblem d noKeyframesProblem
    else
      let intervals := keyframeIntervals keyframes
      let avgInterval := intervals.sum / (intervals.length : ℚ)
      if avgInterval > 10.0 then addProblem d (largeKeyframeIntervalProblem avgInterval)
      else d

/-! ## DetectTimestampIssues (source lines 259–320) -/

/-- The `NON_MONOTONIC_PTS` problem at loop index `i` (source lines 267–275). -/
def nonMonotonicPtsProblem (i : ℕ) (prev cur : FrameInfo) : Problem :=
  ⟨Severity.SeverityError, Category.CategoryTimestamp, "NON_MONOTONIC_PTS",
   "Non-monotonic PTS at frame " ++ toString i,
   "Current: " ++ fmtF 3 cur.PTS ++ ", Previous: " ++ fmtF 3 prev.PTS,
   "Check source file or encoding process for timestamp issues",
   cur.PTS, 0, []⟩

/-- The `LARGE_PTS_GAP` problem at loop index `i` (source lines 281–289). -/
def largePtsGapProblem (i : ℕ) (prev cur : FrameInfo) : Problem :=
  ⟨Severity.SeverityWarning, Category.CategoryTimestamp, "LARGE_PTS_GAP",
   "Large PTS gap at frame " ++ toString i,
   "Gap: " ++ fmtF 3 (cur.PTS - prev.PTS) ++ "s",
   "Check for missing frames or timestamp discontinuities",
   cur.PTS, 0, []⟩

/-- The `NON_MONOTONIC_DTS` problem at loop index `i` (source lines 295–303). -/
def nonMonotonicDtsProblem (i : ℕ) (prev cur : FrameInfo) : Problem :=
  ⟨Severity.SeverityError, Category.CategoryTimestamp, "NON_MONOTONIC_DTS",
   "Non-monotonic DTS at frame " ++ toString i,
   "Current: " ++ fmtF 3 cur.DTS ++ ", Previous: " ++ fmtF 3 prev.DTS,
   "DTS must be monotonically increasing",
   cur.PTS, 0, []⟩

/-- The `PTS_BEFORE_DTS` problem at loop index `i` (source lines 308–316). -/
def ptsBeforeDtsProblem (i : ℕ) (cur : FrameInfo) : Problem :=
  ⟨Severity.SeverityError, Category.CategoryTimestamp, "PTS_BEFORE_DTS",
   "PTS before DTS at frame " ++ toString i,
   "PTS: " ++ fmtF 3 cur.PTS ++ ", DTS: " ++ fmtF 3 cur.DTS,
   "PTS must be greater than or equal to DTS",
   cur.PTS, 0, []⟩

/-- The problems produced by one iteration of the `DetectTimestampIssues`
loop, with `prev = frames[i-1]` and `cur = frames[i]` (source lines 264–319):
four independent conditional `addProblem` calls, the last two guarded by both
DTS values being strictly positive. -/
def tsPairProblems (i : ℕ) (prev cur : FrameInfo) : List Problem :=
  (if cur.PTS < prev.PTS then [nonMonotonicPtsProblem i prev cur] else []) ++
  (if cur.PTS - prev.PTS > 1.0 then [largePtsGapProblem i prev cur] else []) ++
  (if cur.DTS > 0 ∧ prev.DTS > 0 then
    (if cur.DTS < prev.DTS then [nonMonotonicDtsProblem i prev cur] else []) ++
    (if cur.PTS < cur.DTS then [ptsBeforeDtsProblem i cur] else [])
  else [])

/-- The `for i := 1; ...` loop of `DetectTimestampIssues`: each iteration
appends its `tsPairProblems` (a run of sequential `addProblem` calls) and
advances `prev` and the index. -/
def tsLoop : Detector → ℕ → FrameInfo → List FrameInfo → Detector
  | d, _, _, [] => d
  | d, i, prev, cur :: rest =>
      tsLoop ⟨d.problems ++ tsPairProblems i prev cur⟩ (i + 1) cur rest

/-- Go `(*Detector).DetectTimestampIssues` (source lines 259–320). -/
def DetectTimestampIssues (d : Detector) (frames : List FrameInfo) : Detector :=
  if frames.length < 2 then d
  else
    match frames with
    | [] => d
    | f :: rest => tsLoop d 1 f rest

/-! ## DetectPacketLoss (source lines 323–345) -/

/-- The `POTENTIAL_PACKET_LOSS` problem (source lines 334–342). -/
def packetLossProblem (prev cur : PacketInfo) : Problem :=
  ⟨Severity.SeverityWarning, Category.CategoryPacketLoss, "POTENTIAL_PACKET_LOSS",
   "Potential packet loss detected at " ++ fmtF 2 cur.PTS ++ "s",
   "PTS jump of " ++ fmtF 3 (cur.PTS - prev.PTS) ++ "s detected",
   "Check network conditions or source integrity",
   cur.PTS, 0, []⟩

/-- The `for i := 1; ...` loop of `DetectPacketLoss` (source lines 329–344). -/
def plLoop : Detector → PacketInfo → List PacketInfo → Detector
  | d, _, [] => d
  | d, prev, cur :: rest =>
      plLoop (if cur.PTS - prev.PTS > 0.5 then addProblem d (packetLossProblem prev cur) else d)
        cur rest

/-- Go `(*Detector).DetectPacketLoss` (source lines 323–345). -/
def DetectPacketLoss (d : Detector) (packets : List PacketInfo) : Detector :=
  if packets.length < 2 then d
  else
    match packets with
    | [] => d
    | p :: rest => plLoop d p rest

/-! ## AnalyzeCompatibility (source lines 348–383) -/

/-- ASCII lower-casing of one character. -/
def charLower (c : Char) : Char :=
  if 'A' ≤ c ∧ c ≤ 'Z' then Char.ofNat (c.toNat + 32) else c

/-- Models Go `strings.ToLower` on the ASCII strings the compatibility rules
compare (codec, profile and container names); Go's full Unicode case mapping
coincides with ASCII lower-casing on these. -/
def strToLower (s : String) : String := String.mk (s.data.map charLower)

/-- The `H264_COMPATIBILITY` problem (source lines 352–358).  The message
renders `level/10` and `level%10` with `%d`; it is only built when
`level > 41`, where Lean's and Go's integer division and remainder agree. -/
def h264CompatibilityProblem (level : ℤ) : Problem :=
  ⟨Severity.SeverityWarning, Category.CategoryCompatibility, "H264_COMPATIBILITY",
   "H.264 High Profile Level " ++ toString (level / 10) ++ "." ++ toString (level % 10) ++
     " may have limited compatibility", "",
   "Consider using Main Profile Level 4.1 or lower for broader compatibility",
   0, 0, []⟩

/-- The `HEVC_SUPPORT` problem (source lines 364–370). -/
def hevcSupportProblem : Problem :=
  ⟨Severity.SeverityInfo, Category.CategoryCompatibility, "HEVC_SUPPORT",
   "HEVC/H.265 codec requires modern devices for playback", "",
   "Ensure target devices support HEVC or consider providing H.264 fallback",
   0, 0, []⟩

/-- The `CONTAINER_COMPATIBILITY` problem (source lines 375–381). -/
def containerCompatibilityProblem : Problem :=
  ⟨Severity.SeverityInfo, Category.CategoryCompatibility, "CONTAINER_COMPATIBILITY",
   "MKV container may have limited browser support", "",
   "Consider using MP4 container for web compatibility",
   0, 0, []⟩

/-- Go `(*Detector).AnalyzeCompatibility` (source lines 348–383): three
independent rule blocks, evaluated in a fixed order, each on lower-cased
strings. -/
def AnalyzeCompatibility (d : Detector) (codec profile : String) (level : ℤ)
    (container : String) : Detector :=
  let d1 :=
    if strToLower codec = "h264" then
      if strToLower profile = "high" ∧ level > 41 then
        addProblem d (h264CompatibilityProblem level)
      else d
    else d
  let d2 :=
    if strToLower codec = "hevc" ∨ strToLower codec = "h265" then
      addProblem d1 hevcSupportProblem
    else d1
  if strToLower container = "mkv" ∨ strToLower container = "matroska" then
    addProblem d2 containerCompatibilityProblem
  else d2

/-! ## GenerateBitrateTimeline (source lines 417–454) -/

/-- The loop of `GenerateBitrateTimeline` (source lines 426–451), presented
as the per-window view: the ordered list of `(window start time, byte count)`
pairs the function converts into points.  On a window-boundary crossing the
finished window is emitted when its byte count is positive, the window start
advances by exactly `windowSize` (unlike `DetectBitrateVariations`, which
re-anchors at the crossing packet's PTS), and the count restarts at the
packet's size; the final window ("Add final window", lines 444–451) is
emitted by the base case, again only when its byte count is positive. -/
def gbtWindows (windowSize : ℚ) : List PacketInfo → ℚ → ℤ → List (ℚ × ℤ)
  | [], currentWindow, windowBytes =>
      if windowBytes > 0 then [(currentWindow, windowBytes)] else []
  | packet :: rest, currentWindow, windowBytes =>
      if packet.PTS > currentWindow + windowSize then
        (if windowBytes > 0 then [(currentWindow, windowBytes)] else []) ++
          gbtWindows windowSize rest (currentWindow + windowSize) packet.Size
      else
        gbtWindows windowSize rest currentWindow (windowBytes + packet.Size)

/-- Conversion of one finished window into the `BitratePoint` the source
appends: `bitrate := windowBytes * 8 / windowSize`, tagged `"total"`. -/
def windowPoint (windowSize : ℚ) (tw : ℚ × ℤ) : BitratePoint :=
  ⟨tw.1, (tw.2 : ℚ) * 8 / windowSize, "total"⟩

/-- Go `GenerateBitrateTimeline` (source lines 417–454). -/
def GenerateBitrateTimeline (packets : List PacketInfo) (windowSize : ℚ) :
    List BitratePoint :=
  if packets.length = 0 ∨ windowSize ≤ 0 then []
  else (gbtWindows windowSize packets 0 0).map (windowPoint windowSize)

/-! ## Concrete-input helpers -/

/-- A packet with the given PTS and size and Go zero values elsewhere. -/
def mkPkt (pts : ℚ) (size : ℤ) : PacketInfo := ⟨pts, 0, size, 0, "", 0⟩

/-- A video frame with the given key-frame flag, PTS and DTS and Go zero
values elsewhere. -/
def mkFrame (keyFrame : Bool) (pts dts : ℚ) : FrameInfo :=
  ⟨"video", 0, keyFrame, pts, dts, 0, 0, "", "", 0⟩

/-! ## Spec-side characterization lists -/

/-- The problem list accumulated across the `DetectTimestampIssues` loop
starting at index `i` with previous frame `prev`: the concatenation of the
per-pair problem runs. -/
def tsChunks : ℕ → FrameInfo → List FrameInfo → List Problem
  | _, _, [] => []
  | i, prev, cur :: rest => tsPairProblems i prev cur ++ tsChunks (i + 1) cur rest

/-- Spec-side list for the `PTS_BEFORE_DTS` check (claim C4 as amended):
walking adjacent frame pairs from index `i`, one `PTS_BEFORE_DTS` problem
for each pair whose two DTS values are strictly positive and whose current
frame has `PTS < DTS`, and nothing else. -/
def pbdChunks : ℕ → FrameInfo → List FrameInfo → List Problem
  | _, _, [] => []
  | i, prev, cur :: rest =>
      (if cur.DTS > 0 ∧ prev.DTS > 0 ∧ cur.PTS < cur.DTS
       then [ptsBeforeDtsProblem i cur] else []) ++
      pbdChunks (i + 1) cur rest

/-! ## Concrete inputs used by witnesses and counterexamples -/

/-- One non-key frame (a non-empty frame list with zero keyframes). -/
def c1framesW : List FrameInfo := [mkFrame false 0 0]

/-- A single packet of size `0`. -/
def c2zeroPkt : List PacketInfo := [mkPkt 0 0]

/-- Two positive-size packets crossing one 1-second window boundary. -/
def c2pktsW : List PacketInfo := [mkPkt 0 100, mkPkt 2 50]

/-- Three size-1 packets whose second packet jumps several windows ahead:
after the jump, `DetectBitrateVariations` re-anchors its window at PTS `5`
while `GenerateBitrateTimeline` only advances the boundary to `1`. -/
def c3pkts : List PacketInfo := [mkPkt 0 1, mkPkt 5 1, mkPkt (11/2) 1]

/-- Three positive-size packets whose first packet lies in the initial
window. -/
def c3pktsW : List PacketInfo := [mkPkt 0 100, mkPkt 2 100, mkPkt (5/2) 100]

/-- Two frames whose first frame has `DTS > PTS` (and positive DTS). -/
def c4frames : List FrameInfo := [mkFrame false 0 (1/2), mkFrame false (1/2) (1/2)]

/-- Seven packets of constant size `1000` and constant PTS spacing `0.3`
starting at PTS `0.5`: the detector's first window (anchored at time `0`)
holds 2 packets, the second (re-anchored at PTS `1.1`) holds 4, so the two
window bitrates are `16000` and `32000` and the coefficient of variation is
`1/3 > 0.3`. -/
def c6pkts : List PacketInfo :=
  [mkPkt (1/2) 1000, mkPkt (4/5) 1000, mkPkt (11/10) 1000, mkPkt (7/5) 1000,
   mkPkt (17/10) 1000, mkPkt 2 1000, mkPkt (23/10) 1000]

/-- Three packets producing the single window bitrate list `[16]`. -/
def c6pktsW : List PacketInfo := [mkPkt 0 1, mkPkt 0 1, mkPkt 2 1]

/-- A single packet. -/
def c7pkt : List PacketInfo := [mkPkt 3 7]

/-- Three packets, all with PTS at most `1`. -/
def c10pkts : List PacketInfo := [mkPkt 0 10, mkPkt 1 20, mkPkt (1/2) 30]

/-! ## Helper lemmas -/

theorem addProblem_problems (d : Detector) (p : Problem) :
    (addProblem d p).problems = d.problems ++ [p] := rfl

theorem addProblem_extend (d : Detector) (p : Problem) :
    d.problems <+: (addProblem d p).problems :=
  List.prefix_append d.problems [p]

/-- The second component of any element of `List.enumFrom n l` is an element
of `l`. -/
theorem enumFrom_snd_mem {α : Type} :
    ∀ (l : List α) (n : ℕ) (x : ℕ × α), x ∈ l.enumFrom n → x.2 ∈ l := by
  intro l
  induction l with
  | nil => intro n x hx; simp [List.enumFrom] at hx
  | cons a as ih =>
      intro n x hx
      rw [List.enumFrom] at hx
      rcases List.mem_cons.mp hx with h | h
      · subst h; exact List.mem_cons_self a as
      · exact List.mem_cons_of_mem a (ih (n + 1) x h)

/-- The second component of any element of `l.enum` is an element of `l`. -/
theorem enum_snd_mem {α : Type} (l : List α) (x : ℕ × α) (hx : x ∈ l.enum) :
    x.2 ∈ l :=
  enumFrom_snd_mem l 0 x hx

/-- The spike-check fold of `DetectBitrateVariations` adds nothing when no
window bitrate exceeds `avg * 2.5`. -/
theorem spikeFold_eq (avg : ℚ) :
    ∀ (l : List (ℕ × ℚ)) (d : Detector), (∀ x ∈ l, ¬ x.2 > avg * 2.5) →
      l.foldl
        (fun dd ib =>
          if ib.2 > avg * 2.5 then addProblem dd (spikeProblem ib.1 ib.2 avg) else dd)
        d = d := by
  intro l
  induction l with
  | nil => intro d _; rfl
  | cons a as ih =>
      intro d h
      have ha : ¬ a.2 > avg * 2.5 := h a (List.mem_cons_self a as)
      simp only [List.foldl_cons, if_neg ha]
      exact ih d fun x hx => h x (List.mem_cons_of_mem a hx)

/-- The spike-check fold of `DetectBitrateVariations` only appends. -/
theorem spikeFold_extend (avg : ℚ) :
    ∀ (l : List (ℕ × ℚ)) (d : Detector),
      d.problems <+:
        (l.foldl
          (fun dd ib =>
            if ib.2 > avg * 2.5 then addProblem dd (spikeProblem ib.1 ib.2 avg) else dd)
          d).problems := by
  intro l
  induction l with
  | nil => intro d; exact List.prefix_rfl
  | cons a as ih =>
      intro d
      rw [List.foldl_cons]
      refine List.IsPrefix.trans ?_ (ih _)
      by_cases ha : a.2 > avg * 2.5
      · rw [if_pos ha]; exact addProblem_extend d _
      · rw [if_neg ha]

/-- Every window bitrate `DetectBitrateVariations` collects is positive:
each is emitted under the guard `windowBytes > 0`. -/
theorem bvPoints_pos :
    ∀ (ps : List PacketInfo) (cw : ℚ) (wb : ℤ) (x : ℚ),
      x ∈ bvPoints ps cw wb → 0 < x := by
  intro ps
  induction ps with
  | nil => intro cw wb x hx; simp [bvPoints] at hx
  | cons p rest ih =>
      intro cw wb x hx
      rw [bvPoints] at hx
      by_cases h1 : p.PTS > cw + bvTimeWindow
      · rw [if_pos h1] at hx
        by_cases h2 : wb > 0
        · rw [if_pos h2] at hx
          rcases List.mem_cons.mp hx with h | h
          · subst h
            have hwb : (0 : ℚ) < (wb : ℚ) := by exact_mod_cast h2
            rw [show bvTimeWindow = 1 from rfl]
            positivity
          · exact ih _ _ _ h
        · rw [if_neg h2] at hx
          exact ih _ _ _ hx
      · rw [if_neg h1] at hx
        exact ih _ _ _ hx

/-- If no packet's PTS passes the running boundary `cw + 1`, the window
loop of `DetectBitrateVariations` never emits (the boundary never moves). -/
theorem bvPoints_eq_nil :
    ∀ (ps : List PacketInfo) (cw : ℚ) (wb : ℤ),
      (∀ p ∈ ps, p.PTS ≤ cw + bvTimeWindow) → bvPoints ps cw wb = [] := by
  intro ps
  induction ps with
  | nil => intro cw wb _; rfl
  | cons p rest ih =>
      intro cw wb h
      have h1 : ¬ p.PTS > cw + bvTimeWindow :=
        not_lt.mpr (h p (List.mem_cons_self p rest))
      rw [bvPoints, if_neg h1]
      exact ih cw _ fun q hq => h q (List.mem_cons_of_mem p hq)

/-- `DetectBitrateVariations` is the identity whenever its window loop
collects no bitrate points. -/
theorem detectBV_of_no_points (d : Detector) (packets : List PacketInfo)
    (h : bvPoints packets 0 0 = []) : DetectBitrateVariations d packets = d := by
  by_cases h2 : packets.length < 2
  · simp [DetectBitrateVariations, h2]
  · simp [DetectBitrateVariations, h2, h]

/-- Characterization of the `DetectPacketLoss` loop: it appends exactly one
`POTENTIAL_PACKET_LOSS` problem for each adjacent pair whose PTS difference
exceeds `0.5`, in input order, and nothing else. -/
theorem plLoop_problems :
    ∀ (rest : List PacketInfo) (prev : PacketInfo) (d : Detector),
      (plLoop d prev rest).problems =
        d.problems ++ ((prev :: rest).zip rest).filterMap
          (fun pr =>
            if pr.2.PTS - pr.1.PTS > 0.5 then some (packetLossProblem pr.1 pr.2) else none) := by
  intro rest
  induction rest with
  | nil => intro prev d; simp [plLoop]
  | cons cur rest' ih =>
      intro prev d
      rw [plLoop, ih cur]
      by_cases hc : cur.PTS - prev.PTS > 0.5
      · rw [if_pos hc]
        simp [addProblem, List.zip_cons_cons, List.filterMap_cons, hc]
      · rw [if_neg hc]
        simp [List.zip_cons_cons, List.filterMap_cons, hc]

/-- Characterization of the `DetectTimestampIssues` loop: it appends the
concatenation of the per-pair problem runs. -/
theorem tsLoop_problems :
    ∀ (rest : List FrameInfo) (i : ℕ) (prev : FrameInfo) (d : Detector),
      (tsLoop d i prev rest).problems = d.problems ++ tsChunks i prev rest := by
  intro rest
  induction rest with
  | nil => intro i prev d; simp [tsLoop, tsChunks]
  | cons cur rest' ih =>
      intro i prev d
      rw [tsLoop, ih, tsChunks]
      simp [List.append_assoc]

/-- Restricting one pair's problem run to code `PTS_BEFORE_DTS` leaves
exactly the conditional `PTS_BEFORE_DTS` problem: the other three problems
of the run carry different codes. -/
theorem code_beq_nonMonotonicPts (i : ℕ) (prev cur : FrameInfo) :
    ((nonMonotonicPtsProblem i prev cur).code == "PTS_BEFORE_DTS") = false := by
  show (("NON_MONOTONIC_PTS" : String) == "PTS_BEFORE_DTS") = false
  decide

theorem code_beq_largePtsGap (i : ℕ) (prev cur : FrameInfo) :
    ((largePtsGapProblem i prev cur).code == "PTS_BEFORE_DTS") = false := by
  show (("LARGE_PTS_GAP" : String) == "PTS_BEFORE_DTS") = false
  decide

theorem code_beq_nonMonotonicDts (i : ℕ) (prev cur : FrameInfo) :
    ((nonMonotonicDtsProblem i prev cur).code == "PTS_BEFORE_DTS") = false := by
  show (("NON_MONOTONIC_DTS" : String) == "PTS_BEFORE_DTS") = false
  decide

theorem code_beq_ptsBeforeDts (i : ℕ) (cur : FrameInfo) :
    ((ptsBeforeDtsProblem i cur).code == "PTS_BEFORE_DTS") = true := by
  show (("PTS_BEFORE_DTS" : String) == "PTS_BEFORE_DTS") = true
  decide

theorem tsPairProblems_filter (i : ℕ) (prev cur : FrameInfo) :
    (tsPairProblems i prev cur).filter (fun p => p.code == "PTS_BEFORE_DTS") =
      (if cur.DTS > 0 ∧ prev.DTS > 0 ∧ cur.PTS < cur.DTS
       then [ptsBeforeDtsProblem i cur] else []) := by
  rw [tsPairProblems]
  by_cases h3 : cur.DTS > 0 ∧ prev.DTS > 0
  · by_cases h5 : cur.PTS < cur.DTS
    · rw [if_pos h3, if_pos h5,
        if_pos (show cur.DTS > 0 ∧ prev.DTS > 0 ∧ cur.PTS < cur.DTS from ⟨h3.1, h3.2, h5⟩)]
      split_ifs <;>
        simp [List.filter_append, List.filter_cons, code_beq_nonMonotonicPts,
          code_beq_largePtsGap, code_beq_nonMonotonicDts, code_beq_ptsBeforeDts]
    · rw [if_pos h3, if_neg h5,
        if_neg (show ¬(cur.DTS > 0 ∧ prev.DTS > 0 ∧ cur.PTS < cur.DTS) from
          fun h => h5 h.2.2)]
      split_ifs <;>
        simp [List.filter_append, List.filter_cons, code_beq_nonMonotonicPts,
          code_beq_largePtsGap, code_beq_nonMonotonicDts]
  · rw [if_neg h3,
      if_neg (show ¬(cur.DTS > 0 ∧ prev.DTS > 0 ∧ cur.PTS < cur.DTS) from
        fun h => h3 ⟨h.1, h.2.1⟩)]
    split_ifs <;>
      simp [List.filter_append, List.filter_cons, code_beq_nonMonotonicPts,
        code_beq_largePtsGap]

/-- Restricting the whole loop's appended problems to code `PTS_BEFORE_DTS`
yields exactly the spec-side list `pbdChunks`. -/
theorem tsChunks_filter :
    ∀ (rest : List FrameInfo) (i : ℕ) (prev : FrameInfo),
      (tsChunks i prev rest).filter (fun p => p.code == "PTS_BEFORE_DTS") =
        pbdChunks i prev rest := by
  intro rest
  induction rest with
  | nil => intro i prev; simp [tsChunks, pbdChunks]
  | cons cur rest' ih =>
      intro i prev
      rw [tsChunks, pbdChunks, List.filter_append, tsPairProblems_filter, ih]

/-- Every window `GenerateBitrateTimeline` emits has a positive byte count:
both emission sites are guarded by `windowBytes > 0`. -/
theorem gbtWindows_pos (w : ℚ) :
    ∀ (ps : List PacketInfo) (cw : ℚ) (wb : ℤ) (tw : ℚ × ℤ),
      tw ∈ gbtWindows w ps cw wb → 0 < tw.2 := by
  intro ps
  induction ps with
  | nil =>
      intro cw wb tw htw
      rw [gbtWindows] at htw
      by_cases hwb : wb > 0
      · rw [if_pos hwb] at htw
        rcases List.mem_singleton.mp htw with h
        subst h; exact hwb
      · rw [if_neg hwb] at htw
        simp at htw
  | cons p rest ih =>
      intro cw wb tw htw
      rw [gbtWindows] at htw
      by_cases h1 : p.PTS > cw + w
      · rw [if_pos h1] at htw
        rcases List.mem_append.mp htw with h | h
        · by_cases hwb : wb > 0
          · rw [if_pos hwb] at h
            rcases List.mem_singleton.mp h with h'
            subst h'; exact hwb
          · rw [if_neg hwb] at h
            simp at h
        · exact ih _ _ _ h
      · rw [if_neg h1] at htw
        exact ih _ _ _ htw

/-- With a positive running byte count and positive packet sizes, the
timeline loop always emits at least one window (at worst the final one). -/
theorem gbtWindows_ne_nil (w : ℚ) :
    ∀ (ps : List PacketInfo) (cw : ℚ) (wb : ℤ),
      0 < wb → (∀ p ∈ ps, 0 < p.Size) → gbtWindows w ps cw wb ≠ [] := by
  intro ps
  induction ps with
  | nil =>
      intro cw wb hwb _
      rw [gbtWindows, if_pos hwb]
      simp
  | cons p rest ih =>
      intro cw wb hwb hsz
      rw [gbtWindows]
      by_cases h1 : p.PTS > cw + w
      · rw [if_pos h1]
        intro hc
        exact ih _ _ (hsz p (List.mem_cons_self p rest))
          (fun q hq => hsz q (List.mem_cons_of_mem p hq)) (List.append_eq_nil.mp hc).2
      · rw [if_neg h1]
        exact ih _ _ (add_pos hwb (hsz p (List.mem_cons_self p rest)))
          fun q hq => hsz q (List.mem_cons_of_mem p hq)

/-- Starting from an empty window, a non-empty positive-size packet list
still makes the timeline loop emit at least one window. -/
theorem gbtWindows_ne_nil0 (w : ℚ) (p : PacketInfo) (rest : List PacketInfo)
    (cw : ℚ) (hsz : ∀ q ∈ p :: rest, 0 < q.Size) :
    gbtWindows w (p :: rest) cw 0 ≠ [] := by
  have hp : 0 < p.Size := hsz p (List.mem_cons_self p rest)
  have hrest : ∀ q ∈ rest, 0 < q.Size := fun q hq => hsz q (List.mem_cons_of_mem p hq)
  rw [gbtWindows]
  by_cases h1 : p.PTS > cw + w
  · rw [if_pos h1]
    intro hc
    exact gbtWindows_ne_nil w rest _ _ hp hrest (List.append_eq_nil.mp hc).2
  · rw [if_neg h1]
    exact gbtWindows_ne_nil w rest _ _ (by simpa using hp) hrest

/-- Until the first window-boundary crossing with a positive byte count, the
timeline loop (boundary advanced by the window width) and the detector loop
(boundary re-anchored at the crossing packet's PTS) run in lockstep, so the
first bitrate each of them emits is the same; with positive packet sizes the
timeline's final-window point (excluded via `dropLast`) cannot be its first
point unless the detector also emitted nothing. -/
theorem gbt_bv_head_sync :
    ∀ (ps : List PacketInfo) (cw : ℚ) (wb : ℤ),
      0 < wb → (∀ p ∈ ps, 0 < p.Size) →
      (((gbtWindows 1 ps cw wb).map (windowPoint 1)).dropLast.map
          BitratePoint.Bitrate).head? =
        (bvPoints ps cw wb).head? := by
  intro ps
  induction ps with
  | nil =>
      intro cw wb hwb _
      rw [gbtWindows, bvPoints, if_pos hwb]
      simp
  | cons p rest ih =>
      intro cw wb hwb hsz
      have hp : 0 < p.Size := hsz p (List.mem_cons_self p rest)
      have hrest : ∀ q ∈ rest, 0 < q.Size := fun q hq => hsz q (List.mem_cons_of_mem p hq)
      rw [gbtWindows, bvPoints]
      by_cases h1 : p.PTS > cw + 1
      · have h1' : p.PTS > cw + bvTimeWindow := h1
        rw [if_pos h1, if_pos h1', if_pos hwb, if_pos hwb]
        have htail : (gbtWindows 1 rest (cw + 1) p.Size).map (windowPoint 1) ≠ [] := by
          intro hc
          exact gbtWindows_ne_nil 1 rest (cw + 1) p.Size hp hrest (List.map_eq_nil_iff.mp hc)
        rw [List.singleton_append, List.map_cons,
          List.dropLast_cons_of_ne_nil htail, List.map_cons]
        simp [windowPoint, bvTimeWindow]
      · have h1' : ¬ p.PTS > cw + bvTimeWindow := h1
        rw [if_neg h1, if_neg h1']
        exact ih cw _ (add_pos hwb hp) hrest

/-! ## Claim theorems -/

/-- Claim C1, amended: for every NON-EMPTY frame sequence with fewer than 2
keyframes, `DetectKeyframeIssues` appends exactly one finding, the
`NO_KEYFRAMES` Error, and no other finding.  (The claim as stated also
covers the empty sequence, where the function returns without any finding —
see the counterexample.) -/
theorem detectKeyframeIssues_few_keyframes :
    ∀ (d : Detector) (frames : List FrameInfo),
      frames ≠ [] →
      (frames.filter (fun frame => frame.KeyFrame)).length < 2 →
      (DetectKeyframeIssues d frames).problems = d.problems ++ [noKeyframesProblem] ∧
      noKeyframesProblem.severity = Severity.SeverityError ∧
      noKeyframesProblem.code = "NO_KEYFRAMES" := by
  intro d frames hne hkf
  refine ⟨?_, rfl, rfl⟩
  have hlen : ¬ frames.length = 0 := by
    simpa [List.length_eq_zero] using hne
  simp [DetectKeyframeIssues, hlen, hkf, addProblem]

/-- Counterexample to claim C1 as stated: the empty frame sequence contains
fewer than 2 (namely zero) keyframes, yet `DetectKeyframeIssues` appends no
finding at all (the `len(frames) == 0` guard returns first). -/
theorem detectKeyframeIssues_empty_cex :
    (List.filter (fun frame => frame.KeyFrame) ([] : List FrameInfo)).length < 2 ∧
    (DetectKeyframeIssues Detector.New []).problems = [] :=
  ⟨by decide, by simp [DetectKeyframeIssues, Detector.New]⟩

/-- Witness for claim C1's amended theorem at a one-frame input with no
keyframe. -/
theorem detectKeyframeIssues_few_keyframes_witness :
    (DetectKeyframeIssues Detector.New c1framesW).problems =
      Detector.New.problems ++ [noKeyframesProblem] :=
  (detectKeyframeIssues_few_keyframes Detector.New c1framesW
    (by simp [c1framesW]) (by decide)).1

/-- Claim C7: with fewer than 2 packets, `DetectBitrateVariations` and
`DetectPacketLoss` both return the detector unchanged, and so does
`DetectBitrateVariations` whenever its window loop computes zero windows
(so the mean of zero windows is never formed). -/
theorem analyzers_small_input :
    ∀ (d : Detector) (packets : List PacketInfo),
      (packets.length < 2 →
        DetectBitrateVariations d packets = d ∧ DetectPacketLoss d packets = d) ∧
      (bvPoints packets 0 0 = [] → DetectBitrateVariations d packets = d) := by
  intro d packets
  refine ⟨fun h2 => ⟨?_, ?_⟩, fun h0 => detectBV_of_no_points d packets h0⟩
  · rw [DetectBitrateVariations, if_pos h2]
  · rw [DetectPacketLoss.eq_def, if_pos h2]

/-- Witness for claim C7 at a single-packet input (which also computes zero
windows). -/
theorem analyzers_small_input_witness :
    (DetectBitrateVariations Detector.New c7pkt = Detector.New ∧
      DetectPacketLoss Detector.New c7pkt = Detector.New) ∧
    DetectBitrateVariations Detector.New c7pkt = Detector.New :=
  ⟨(analyzers_small_input Detector.New c7pkt).1 (by decide),
    (analyzers_small_input Detector.New c7pkt).2
      (by norm_num [bvPoints, c7pkt, mkPkt, bvTimeWindow])⟩

/-- Claim C10: if no packet's PTS exceeds `1.0`, the running window
boundary (starting at `0`) is never crossed, the accumulated bytes are
discarded without ever becoming a window bitrate, and
`DetectBitrateVariations` appends nothing — regardless of packet count or
sizes. -/
theorem detectBitrateVariations_no_window :
    ∀ (d : Detector) (packets : List PacketInfo),
      (∀ p ∈ packets, p.PTS ≤ 1) →
      bvPoints packets 0 0 = [] ∧ DetectBitrateVariations d packets = d := by
  intro d packets h
  have h0 : bvPoints packets 0 0 = [] := by
    apply bvPoints_eq_nil
    intro p hp
    rw [show (0 : ℚ) + bvTimeWindow = 1 by norm_num [bvTimeWindow]]
    exact h p hp
  exact ⟨h0, detectBV_of_no_points d packets h0⟩

/-- Witness for claim C10 at a three-packet input with PTS values
`0, 1, 1/2`. -/
theorem detectBitrateVariations_no_window_witness :
    bvPoints c10pkts 0 0 = [] ∧
    DetectBitrateVariations Detector.New c10pkts = Detector.New :=
  detectBitrateVariations_no_window Detector.New c10pkts
    (by norm_num [c10pkts, mkPkt])

/-- Claim C8: on at least 2 packets (here: any `p :: rest`),
`DetectPacketLoss` appends exactly one `POTENTIAL_PACKET_LOSS` Warning per
adjacent pair whose PTS difference exceeds `0.5`, in order, with the gap
rendered in the details and timestamp equal to the later packet's PTS, and
appends nothing else. -/
theorem detectPacketLoss_gaps :
    ∀ (d : Detector) (p : PacketInfo) (rest : List PacketInfo),
      ((DetectPacketLoss d (p :: rest)).problems =
        d.problems ++ ((p :: rest).zip rest).filterMap
          (fun pr =>
            if pr.2.PTS - pr.1.PTS > 0.5 then some (packetLossProblem pr.1 pr.2)
            else none)) ∧
      (∀ prev cur : PacketInfo,
        (packetLossProblem prev cur).timestamp = cur.PTS ∧
        (packetLossProblem prev cur).severity = Severity.SeverityWarning ∧
        (packetLossProblem prev cur).code = "POTENTIAL_PACKET_LOSS" ∧
        (packetLossProblem prev cur).details =
          "PTS jump of " ++ fmtF 3 (cur.PTS - prev.PTS) ++ "s detected") := by
  intro d p rest
  refine ⟨?_, fun prev cur => ⟨rfl, rfl, rfl, rfl⟩⟩
  by_cases h2 : (p :: rest).length < 2
  · have hrest : rest = [] := by
      cases rest with
      | nil => rfl
      | cons a as =>
          rw [List.length_cons, List.length_cons] at h2
          exact absurd h2 (by omega)
    subst hrest
    simp [DetectPacketLoss]
  · simp only [DetectPacketLoss, if_neg h2]
    exact plLoop_problems rest p d

/-- Claim C4, amended: `DetectTimestampIssues` emits exactly one
`PTS_BEFORE_DTS` Error, with timestamp the frame's PTS, for each index
`i ≥ 1` at which `PTS < DTS` AND both `DTS[i]` and `DTS[i-1]` are strictly
positive; index 0 is never examined and pairs with a non-positive DTS are
skipped (see the counterexample for the claim as stated). -/
theorem detectTimestampIssues_pts_before_dts :
    ∀ (d : Detector) (f : FrameInfo) (rest : List FrameInfo),
      ((DetectTimestampIssues d (f :: rest)).problems.filter
          (fun p => p.code == "PTS_BEFORE_DTS") =
        d.problems.filter (fun p => p.code == "PTS_BEFORE_DTS") ++
          pbdChunks 1 f rest) ∧
      (DetectTimestampIssues d []).problems = d.problems ∧
      (∀ (i : ℕ) (cur : FrameInfo),
        (ptsBeforeDtsProblem i cur).timestamp = cur.PTS ∧
        (ptsBeforeDtsProblem i cur).severity = Severity.SeverityError) := by
  intro d f rest
  refine ⟨?_, by simp [DetectTimestampIssues], fun i cur => ⟨rfl, rfl⟩⟩
  by_cases h2 : (f :: rest).length < 2
  · have hrest : rest = [] := by
      cases rest with
      | nil => rfl
      | cons a as =>
          rw [List.length_cons, List.length_cons] at h2
          exact absurd h2 (by omega)
    subst hrest
    simp [DetectTimestampIssues, pbdChunks]
  · simp only [DetectTimestampIssues, if_neg h2]
    rw [tsLoop_problems, List.filter_append, tsChunks_filter]

/-- Counterexample to claim C4 as stated: the first frame of `c4frames` has
`DTS > PTS` at index 0, but `DetectTimestampIssues` emits no finding at all
(the loop starts at index 1 and only ever checks the current frame). -/
theorem detectTimestampIssues_index0_cex :
    (mkFrame false 0 (1/2)).PTS < (mkFrame false 0 (1/2)).DTS ∧
    (DetectTimestampIssues Detector.New c4frames).problems = [] := by
  constructor
  · norm_num [mkFrame]
  · norm_num [DetectTimestampIssues, tsLoop, tsPairProblems, c4frames, mkFrame,
      Detector.New]

/-- Claim C5: the three compatibility rules, their independence, the level
rendering with "5.0" at level 50, and the two concrete evaluations. -/
theorem analyzeCompatibility_rules :
    (∀ (d : Detector) (codec profile : String) (level : ℤ) (container : String),
      (AnalyzeCompatibility d codec profile level container).problems =
        d.problems ++
          (if strToLower codec = "h264" ∧ strToLower profile = "high" ∧ level > 41
           then [h264CompatibilityProblem level] else []) ++
          (if strToLower codec = "hevc" ∨ strToLower codec = "h265"
           then [hevcSupportProblem] else []) ++
          (if strToLower container = "mkv" ∨ strToLower container = "matroska"
           then [containerCompatibilityProblem] else [])) ∧
    (∀ (d : Detector) (codec profile : String) (level : ℤ),
      containerCompatibilityProblem ∈
        (AnalyzeCompatibility d codec profile level "mkv").problems) ∧
    (AnalyzeCompatibility Detector.New "h264" "High" 50 "mp4").problems =
      [h264CompatibilityProblem 50] ∧
    strContains (h264CompatibilityProblem 50).message "5.0" = true ∧
    (h264CompatibilityProblem 50).severity = Severity.SeverityWarning ∧
    (h264CompatibilityProblem 50).code = "H264_COMPATIBILITY" ∧
    (AnalyzeCompatibility Detector.New "hevc" "" 0 "mp4").problems =
      [hevcSupportProblem] ∧
    hevcSupportProblem.severity = Severity.SeverityInfo ∧
    hevcSupportProblem.code = "HEVC_SUPPORT" ∧
    containerCompatibilityProblem.severity = Severity.SeverityInfo ∧
    containerCompatibilityProblem.code = "CONTAINER_COMPATIBILITY" := by
  have hA : ∀ (d : Detector) (codec profile : String) (level : ℤ) (container : String),
      (AnalyzeCompatibility d codec profile level container).problems =
        d.problems ++
          (if strToLower codec = "h264" ∧ strToLower profile = "high" ∧ level > 41
           then [h264CompatibilityProblem level] else []) ++
          (if strToLower codec = "hevc" ∨ strToLower codec = "h265"
           then [hevcSupportProblem] else []) ++
          (if strToLower container = "mkv" ∨ strToLower container = "matroska"
           then [containerCompatibilityProblem] else []) := by
    intro d codec profile level container
    simp only [AnalyzeCompatibility]
    split_ifs <;> simp_all [addProblem, List.append_assoc]
  refine ⟨hA, ?_, ?_, by decide, rfl, rfl, ?_, rfl, rfl, rfl, rfl⟩
  · intro d codec profile level
    rw [hA d codec profile level "mkv"]
    have hm : strToLower "mkv" = "mkv" ∨ strToLower "mkv" = "matroska" :=
      Or.inl (by decide)
    rw [if_pos hm]
    simp
  · rw [hA Detector.New "h264" "High" 50 "mp4"]
    rw [if_pos (show strToLower "h264" = "h264" ∧ strToLower "High" = "high" ∧
        (50:ℤ) > 41 from ⟨by decide, by decide, by decide⟩)]
    rw [if_neg (by decide), if_neg (by decide)]
    rfl
  · rw [hA Detector.New "hevc" "" 0 "mp4"]
    rw [if_neg (by decide), if_pos (show strToLower "hevc" = "hevc" ∨
        strToLower "hevc" = "h265" from Or.inl (by decide)), if_neg (by decide)]
    rfl

/-! ## Per-analyzer prefix lemmas (for the append-only claim) -/

theorem prefix_addProblem_trans {d e : Detector} (h : d.problems <+: e.problems)
    (p : Problem) : d.problems <+: (addProblem e p).problems :=
  h.trans (addProblem_extend e p)

theorem detectBV_extend (d : Detector) (packets : List PacketInfo) :
    d.problems <+: (DetectBitrateVariations d packets).problems := by
  by_cases h2 : packets.length < 2
  · rw [DetectBitrateVariations, if_pos h2]
  · simp only [DetectBitrateVariations, if_neg h2]
    by_cases h0 : (bvPoints packets 0 0).length = 0
    · rw [if_pos h0]
    · rw [if_neg h0]
      refine List.IsPrefix.trans ?_ (spikeFold_extend _ _ _)
      split
      · exact addProblem_extend d _
      · exact List.prefix_rfl

theorem detectKI_extend (d : Detector) (frames : List FrameInfo) :
    d.problems <+: (DetectKeyframeIssues d frames).problems := by
  simp only [DetectKeyframeIssues]
  split
  · exact List.prefix_rfl
  · split
    · exact addProblem_extend d _
    · split
      · exact addProblem_extend d _
      · exact List.prefix_rfl

theorem detectTI_extend (d : Detector) (frames : List FrameInfo) :
    d.problems <+: (DetectTimestampIssues d frames).problems := by
  rcases frames with _ | ⟨f, rest⟩
  · simp [DetectTimestampIssues]
  · by_cases h2 : (f :: rest).length < 2
    · simp only [DetectTimestampIssues, if_pos h2]
      exact List.prefix_rfl
    · simp only [DetectTimestampIssues, if_neg h2]
      rw [tsLoop_problems]
      exact List.prefix_append _ _

theorem detectPL_extend (d : Detector) (packets : List PacketInfo) :
    d.problems <+: (DetectPacketLoss d packets).problems := by
  rcases packets with _ | ⟨p, rest⟩
  · simp [DetectPacketLoss]
  · by_cases h2 : (p :: rest).length < 2
    · simp only [DetectPacketLoss, if_pos h2]
      exact List.prefix_rfl
    · simp only [DetectPacketLoss, if_neg h2]
      rw [plLoop_problems]
      exact List.prefix_append _ _

theorem analyzeCompat_extend (d : Detector) (codec profile : String) (level : ℤ)
    (container : String) :
    d.problems <+: (AnalyzeCompatibility d codec profile level container).problems := by
  simp only [AnalyzeCompatibility]
  repeat' split
  all_goals
    repeat
      first
        | exact List.prefix_rfl
        | apply prefix_addProblem_trans

/-- Claim C9: `GetProblems` returns the accumulated collection as is (and,
being a pure function of the detector state, returns the same list when
called twice without intervening analyzer calls), and every analyzer leaves
the previously accumulated findings unchanged, in order, as a prefix of the
new collection. -/
theorem engine_append_only :
    ∀ (d : Detector) (packets : List PacketInfo) (frames : List FrameInfo)
      (codec profile : String) (level : ℤ) (container : String),
      GetProblems d = d.problems ∧
      d.problems <+: (DetectBitrateVariations d packets).problems ∧
      d.problems <+: (DetectKeyframeIssues d frames).problems ∧
      d.problems <+: (DetectTimestampIssues d frames).problems ∧
      d.problems <+: (DetectPacketLoss d packets).problems ∧
      d.problems <+: (AnalyzeCompatibility d codec profile level container).problems :=
  fun d packets frames codec profile level container =>
    ⟨rfl, detectBV_extend d packets, detectKI_extend d frames, detectTI_extend d frames,
      detectPL_extend d packets, analyzeCompat_extend d codec profile level container⟩

/-- Claim C2, amended: `GenerateBitrateTimeline` returns an empty result on
an empty packet list or non-positive window size; otherwise it emits exactly
one point, with bitrate `windowBytes * 8 / windowSize` and the window's
start time, for every window that accumulated a POSITIVE byte count
(including the final partial window), and with all packet sizes positive the
result is non-empty.  (Emptiness is not "exactly when" the input is empty or
the width non-positive: zero-size packets also give an empty result — see
the counterexample.) -/
theorem generateBitrateTimeline_windows :
    (∀ (windowSize : ℚ), GenerateBitrateTimeline [] windowSize = []) ∧
    (∀ (packets : List PacketInfo) (windowSize : ℚ), windowSize ≤ 0 →
      GenerateBitrateTimeline packets windowSize = []) ∧
    (∀ (packets : List PacketInfo) (windowSize : ℚ), packets ≠ [] → 0 < windowSize →
      GenerateBitrateTimeline packets windowSize =
        (gbtWindows windowSize packets 0 0).map (windowPoint windowSize) ∧
      (∀ tw ∈ gbtWindows windowSize packets 0 0, 0 < tw.2) ∧
      ((∀ p ∈ packets, 0 < p.Size) →
        GenerateBitrateTimeline packets windowSize ≠ [])) := by
  refine ⟨fun w => by simp [GenerateBitrateTimeline],
    fun ps w hw => by simp [GenerateBitrateTimeline, hw], ?_⟩
  intro ps w hne hw
  have hguard : ¬ (ps.length = 0 ∨ w ≤ 0) := by
    rintro (h | h)
    · exact hne (List.length_eq_zero.mp h)
    · exact absurd hw (not_lt.mpr h)
  refine ⟨by rw [GenerateBitrateTimeline, if_neg hguard], gbtWindows_pos w ps 0 0, ?_⟩
  intro hsz
  rw [GenerateBitrateTimeline, if_neg hguard]
  rcases ps with _ | ⟨p, rest⟩
  · exact absurd rfl hne
  · intro hc
    exact gbtWindows_ne_nil0 w p rest 0 hsz (List.map_eq_nil_iff.mp hc)

/-- Counterexample to claim C2 as stated: a non-empty packet list with a
positive window size whose single packet has size `0` yields an empty
timeline (both emission sites require `windowBytes > 0`). -/
theorem generateBitrateTimeline_zero_size_cex :
    c2zeroPkt ≠ [] ∧ (0 : ℚ) < 1 ∧ GenerateBitrateTimeline c2zeroPkt 1 = [] := by
  refine ⟨by simp [c2zeroPkt], by norm_num, ?_⟩
  norm_num [GenerateBitrateTimeline, gbtWindows, c2zeroPkt, mkPkt]

/-- Witness for claim C2's amended theorem at a two-packet positive-size
input with window size `1`. -/
theorem generateBitrateTimeline_windows_witness :
    GenerateBitrateTimeline c2pktsW 1 =
      (gbtWindows 1 c2pktsW 0 0).map (windowPoint 1) ∧
    GenerateBitrateTimeline c2pktsW 1 ≠ [] := by
  have h := generateBitrateTimeline_windows.2.2 c2pktsW 1
    (by simp [c2pktsW]) (by norm_num)
  exact ⟨h.1, h.2.2 (by norm_num [c2pktsW, mkPkt])⟩

/-- Claim C3, amended: every point `GenerateBitrateTimeline` emits is tagged
type `"total"`, and the two functions share the crossing test and in-window
byte accumulation, so (for positive packet sizes, with the first packet
inside the initial window) the FIRST per-window bitrate the timeline emits —
its final partial-window point excluded — equals the first window bitrate
`DetectBitrateVariations` computes internally.  The full sequences differ in
general: on a crossing the analyzer re-anchors the window at the packet's
PTS while the timeline advances the boundary by exactly one window width
(see the counterexample). -/
theorem timeline_first_window_agrees :
    (∀ (packets : List PacketInfo) (windowSize : ℚ),
      ∀ pt ∈ GenerateBitrateTimeline packets windowSize, pt.Typ = "total") ∧
    (∀ (f : PacketInfo) (rest : List PacketInfo),
      f.PTS ≤ 1 → (∀ p ∈ f :: rest, 0 < p.Size) →
      (((GenerateBitrateTimeline (f :: rest) 1).dropLast.map
          BitratePoint.Bitrate).head?) =
        (bvPoints (f :: rest) 0 0).head?) := by
  constructor
  · intro ps w pt hpt
    rw [GenerateBitrateTimeline] at hpt
    by_cases hg : ps.length = 0 ∨ w ≤ 0
    · rw [if_pos hg] at hpt; simp at hpt
    · rw [if_neg hg] at hpt
      obtain ⟨tw, _, rfl⟩ := List.mem_map.mp hpt
      rfl
  · intro f rest hpts hsz
    have hguard : ¬ ((f :: rest).length = 0 ∨ (1 : ℚ) ≤ 0) := by
      rintro (h | h)
      · simp at h
      · norm_num at h
    rw [GenerateBitrateTimeline, if_neg hguard]
    have h1 : ¬ f.PTS > (0 : ℚ) + 1 := by
      rw [zero_add]; exact not_lt.mpr hpts
    have h1' : ¬ f.PTS > (0 : ℚ) + bvTimeWindow := h1
    rw [gbtWindows, if_neg h1, bvPoints, if_neg h1']
    exact gbt_bv_head_sync rest 0 _
      (by simpa using hsz f (List.mem_cons_self f rest))
      fun q hq => hsz q (List.mem_cons_of_mem f hq)

/-- Counterexample to claim C3 as stated: on `c3pkts` the timeline (window
width 1, final point excluded) emits bitrates `[8, 8]` while the analyzer's
internal window bitrates are `[8]` — after the packet at PTS `5` crosses,
the analyzer re-anchors at `5` but the timeline's boundary only moves to
`1`, so the packet at PTS `5.5` closes another timeline window. -/
theorem timeline_vs_detector_cex :
    (GenerateBitrateTimeline c3pkts 1).dropLast.map BitratePoint.Bitrate = [8, 8] ∧
    bvPoints c3pkts 0 0 = [8] ∧
    (GenerateBitrateTimeline c3pkts 1).dropLast.map BitratePoint.Bitrate ≠
      bvPoints c3pkts 0 0 := by
  have e1 : (GenerateBitrateTimeline c3pkts 1).dropLast.map BitratePoint.Bitrate
      = [8, 8] := by
    norm_num [GenerateBitrateTimeline, gbtWindows, windowPoint, c3pkts, mkPkt]
  have e2 : bvPoints c3pkts 0 0 = [8] := by
    norm_num [bvPoints, c3pkts, mkPkt, bvTimeWindow]
  exact ⟨e1, e2, by rw [e1, e2]; simp⟩

/-- Witness for claim C3's amended theorem at a three-packet positive-size
input whose first packet lies in the initial window. -/
theorem timeline_first_window_agrees_witness :
    (((GenerateBitrateTimeline c3pktsW 1).dropLast.map
        BitratePoint.Bitrate).head?) =
      (bvPoints c3pktsW 0 0).head? :=
  timeline_first_window_agrees.2 (mkPkt 0 100) [mkPkt 2 100, mkPkt (5/2) 100]
    (by norm_num [mkPkt]) (by norm_num [mkPkt])

/-- Claim C6, amended: whenever the computed window bitrates are all equal
(uniform per-window bitrate), `DetectBitrateVariations` appends no
`BITRATE_HIGH_VARIANCE` and no `BITRATE_SPIKE` finding — it returns the
detector unchanged.  Constant packet size and constant PTS spacing alone do
NOT guarantee uniform windows, because the first window is anchored at time
`0` while later windows are re-anchored at packet PTS values (see the
counterexample). -/
theorem detectBitrateVariations_uniform :
    ∀ (d : Detector) (packets : List PacketInfo) (b : ℚ),
      (∀ x ∈ bvPoints packets 0 0, x = b) →
      DetectBitrateVariations d packets = d := by
  intro d packets b hall
  by_cases h2 : packets.length < 2
  · rw [DetectBitrateVariations, if_pos h2]
  · by_cases h0 : bvPoints packets 0 0 = []
    · exact detectBV_of_no_points d packets h0
    · obtain ⟨x0, hx0⟩ := List.exists_mem_of_ne_nil _ h0
      have hb : 0 < b := hall x0 hx0 ▸ bvPoints_pos packets 0 0 x0 hx0
      obtain ⟨n, hn⟩ : ∃ n, bvPoints packets 0 0 = List.replicate n b :=
        ⟨(bvPoints packets 0 0).length, List.eq_replicate_length.mpr hall⟩
      have hn0 : n ≠ 0 := by
        intro h
        rw [h] at hn
        exact h0 (by simpa using hn)
      have hlen : ¬ (bvPoints packets 0 0).length = 0 := by
        rw [hn]
        simpa using hn0
      simp only [DetectBitrateVariations]
      rw [if_neg h2, if_neg hlen, hn]
      have havg : (List.replicate n b).sum / ((List.replicate n b).length : ℚ) = b := by
        rw [List.sum_replicate, List.length_replicate, nsmul_eq_mul]
        exact mul_div_cancel_left₀ b (by exact_mod_cast hn0)
      rw [havg]
      have hvar : ((List.replicate n b).map (fun bitrate => (bitrate - b) ^ 2)).sum
          = 0 := by
        rw [List.map_replicate]
        simp
      rw [hvar]
      have hcv : ¬ ((0 : ℚ) / ((List.replicate n b).length : ℚ) > (0.3 * b) ^ 2) := by
        rw [zero_div]
        exact not_lt.mpr (sq_nonneg _)
      rw [if_neg hcv]
      apply spikeFold_eq
      intro x hx
      have hxb : x.2 = b := List.eq_of_mem_replicate (enum_snd_mem _ x hx)
      rw [hxb]
      intro hgt
      nlinarith

/-- Counterexample to claim C6 as stated: `c6pkts` has constant packet size
(1000 bytes) and constant PTS spacing (0.3 s), yet the analyzer's windows are
NOT uniform (2 packets in the first, 4 in the second) and it appends a
`BITRATE_HIGH_VARIANCE` finding. -/
theorem detectBitrateVariations_constant_rate_cex :
    bvPoints c6pkts 0 0 = [16000, 32000] ∧
    (DetectBitrateVariations Detector.New c6pkts).problems =
      [highVarianceProblem 24000] ∧
    (highVarianceProblem 24000).code = "BITRATE_HIGH_VARIANCE" ∧
    (highVarianceProblem 24000).severity = Severity.SeverityWarning := by
  have e1 : bvPoints c6pkts 0 0 = [16000, 32000] := by
    norm_num [bvPoints, c6pkts, mkPkt, bvTimeWindow]
  refine ⟨e1, ?_, rfl, rfl⟩
  simp only [DetectBitrateVariations]
  rw [if_neg (show ¬ c6pkts.length < 2 by norm_num [c6pkts]), e1]
  norm_num [Detector.New, addProblem, List.enum, List.enumFrom,
    List.foldl_cons, List.foldl_nil, List.sum_cons, List.sum_nil,
    List.map_cons, List.map_nil]

/-- Witness for claim C6's amended theorem at an input whose single window
bitrate list is `[16]`. -/
theorem detectBitrateVariations_uniform_witness :
    DetectBitrateVariations Detector.New c6pktsW = Detector.New :=
  detectBitrateVariations_uniform Detector.New c6pktsW 16
    (by norm_num [bvPoints, c6pktsW, mkPkt, bvTimeWindow])

end MediaParser
